import Mathlib

/-!
Verification of the descriptor-driven coercion, validation and type-guard
engine of this repository.

The repository ships the engine's public typeguard module
(src/packages/type/src/typeguard.ts) together with its test suites
(src/tests/validation.spec.ts and src/packages/bson/tests/bson-parser.spec.ts).
The recursive coercion/validation engine itself is not part of src/, so the
definitions below for the validate and BSON-conversion paths are modelled from
the specification, with the in-repository tests fixing every behaviour the
claims touch.  The typeguard module is embedded directly from its source.
-/

/-- Decimal digit accumulation used by numeric-string parsing.  Returns none
as soon as a non-digit character occurs. -/
def digitsToNatAux (acc : Nat) : List Char → Option Nat
  | [] => some acc
  | c :: cs => if c.isDigit then digitsToNatAux (acc * 10 + (c.toNat - 48)) cs else none

/-- Standard numeric parsing of a string to an integer: an optional leading
minus sign followed by at least one decimal digit.  Non-numeric strings fail
(spec section 4.2, number kind). -/
def parseIntString (s : String) : Option Int :=
  match s.data with
  | [] => none
  | '-' :: rest =>
    match rest with
    | [] => none
    | _ => (digitsToNatAux 0 rest).map (fun n => -(n : Int))
  | l => (digitsToNatAux 0 l).map (fun n => (n : Int))

namespace Marshal

/-- Modelled from the spec: generic input values handed to the validate engine
(the engine code is not under src/; the value-tree node kinds follow spec
section 6).  The validate-path claims only exercise primitive leaves. -/
inductive MValue where
  | undefinedv
  | nullv
  | str (s : String)
  | num (n : Int)
  deriving DecidableEq, Repr

/-- Modelled from the spec: the primitive descriptor kinds the validate-path
claims exercise (string and number fields, spec section 3). -/
inductive PKind where
  | pstring
  | pnumber
  deriving DecidableEq, Repr

/-- ConversionError record: code, message and rendered path
(spec section 3). -/
structure Err where
  code : String
  message : String
  path : String
  deriving DecidableEq, Repr

def mkErr (code message path : String) : Err := ⟨code, message, path⟩

/-- Modelled from the spec: the outcome of running one custom validator.  A
validator may pass, return an error descriptor, or raise an error object
carrying its kind name and message (spec section 4.2, custom validators). -/
inductive VOutcome where
  | pass
  | fail (code message : String)
  | raised (kindName message : String)

/-- Modelled from the spec: a registered custom validator with an optional
declared error code; raising is caught at the boundary and normalized using
the declared code or the raised kind name (spec sections 4.2 and 9). -/
structure PropValidator where
  declaredCode : Option String
  check : MValue → VOutcome

/-- Modelled from the spec: one declared property of a class descriptor
(spec section 3, ObjectType properties, plus optional/nullable/default
markers and attached validators). -/
structure MField where
  name : String
  kind : PKind
  optional : Bool
  nullable : Bool
  defaultValue : Option MValue
  validators : List PropValidator

/-- Modelled from the spec and validation.spec.ts: the per-kind validation
rule.  A string field accepts only strings (invalid_string, No String given
otherwise); a number field accepts numbers and numeric strings
(invalid_number, No Number given otherwise).  Returns none on success. -/
def kindCheck : PKind → MValue → Option (String × String)
  | .pstring, .str _ => none
  | .pstring, _ => some ("invalid_string", "No String given")
  | .pnumber, .num _ => none
  | .pnumber, .str s =>
    if (parseIntString s).isSome then none else some ("invalid_number", "No Number given")
  | .pnumber, _ => some ("invalid_number", "No Number given")

/-- Modelled from the spec: validators run in declaration order, the first
failure short-circuits; an exception raised inside a validator is caught and
normalized to the declared code or the raised kind name (spec section 4.2). -/
def runValidators : List PropValidator → MValue → Option (String × String)
  | [], _ => none
  | pv :: rest, v =>
    match pv.check v with
    | .pass => runValidators rest v
    | .fail c m => some (c, m)
    | .raised k m => some (pv.declaredCode.getD k, m)

/-- Kind check followed by the custom validators of the field; at most one
error record is produced for the field, tagged with its path. -/
def kindErrors (f : MField) (v : MValue) : List Err :=
  match kindCheck f.kind v with
  | some (c, m) => [mkErr c m f.name]
  | none =>
    match runValidators f.validators v with
    | some (c, m) => [mkErr c m f.name]
    | none => []

/-- Modelled from the spec (section 4.2, absence handling): undefined is
satisfied by a default or by optionality, otherwise required; null is
satisfied by nullability, falls through to the kind check when the field is
optional, and is otherwise a required error even when a default exists;
present values go to the kind check and validators. -/
def fieldErrors (f : MField) (v : MValue) : List Err :=
  match v with
  | .undefinedv =>
    if f.defaultValue.isSome then []
    else if f.optional then []
    else [mkErr "required" "Required value is undefined" f.name]
  | .nullv =>
    if f.nullable then []
    else if f.optional then kindErrors f .nullv
    else [mkErr "required" "Required value is null" f.name]
  | v => kindErrors f v

/-- The error code a kind reports for a value of the wrong shape
(validation.spec.ts: invalid_string, invalid_number). -/
def kindErrCode : PKind → String
  | .pstring => "invalid_string"
  | .pnumber => "invalid_number"

/-- The error message a kind reports for a value of the wrong shape
(validation.spec.ts: No String given, No Number given). -/
def kindErrMsg : PKind → String
  | .pstring => "No String given"
  | .pnumber => "No Number given"

/-- Keyed lookup in the plain input object; a missing key reads as
undefined. -/
def lookupValue (entries : List (String × MValue)) (name : String) : MValue :=
  match entries.find? (fun e => e.1 == name) with
  | some e => e.2
  | none => .undefinedv

/-- Modelled from the spec: validate walks the declared properties in order
and accumulates path-tagged errors; an empty list means valid
(spec section 6). -/
def validate (fields : List MField) (input : List (String × MValue)) : List Err :=
  (fields.map (fun f => fieldErrors f (lookupValue input f.name))).flatten

/-- Modelled from the spec: plain conversion of one field value, applying the
default on undefined, passing null through, and substituting undefined for a
failed sub-value (spec sections 4.2 and 6, plainConvert). -/
def plainConvertField (f : MField) (v : MValue) : MValue :=
  match v with
  | .undefinedv => f.defaultValue.getD .undefinedv
  | .nullv => .nullv
  | .str s =>
    match f.kind with
    | .pstring => .str s
    | .pnumber => match parseIntString s with
      | some n => .num n
      | none => .undefinedv
  | .num n =>
    match f.kind with
    | .pstring => .str (toString n)
    | .pnumber => .num n

/-- Modelled from the spec: plainConvert does not aggregate-fail; partial
values pass through for the caller to inspect (spec section 6). -/
def plainToClass (fields : List MField) (input : List (String × MValue)) :
    List (String × MValue) :=
  fields.map (fun f => (f.name, plainConvertField f (lookupValue input f.name)))

/-- Modelled from the spec: the validate-and-construct entry point
(validatedPlainToClass) accumulates all errors and raises a single aggregate
ValidationFailed condition carrying the full ordered error list when it is
non-empty, otherwise returns the converted value (spec sections 4.2 and 6). -/
def validatedPlainToClass (fields : List MField) (input : List (String × MValue)) :
    Except (List Err) (List (String × MValue)) :=
  let errors := validate fields input
  if errors.isEmpty then .ok (plainToClass fields input) else .error errors

end Marshal

namespace Bson

/-- Modelled from the spec: the generic value tree the binary parser hands to
the conversion engine (spec section 6: absent, null, string, number, boolean,
ordered sequence, keyed structure, date instant). -/
inductive Value where
  | vundefined
  | vnull
  | vbool (b : Bool)
  | vnum (n : Int)
  | vstr (s : String)
  | vdate (instant : Int)
  | varr (l : List Value)
  | vobj (entries : List (String × Value))

/-- Whether a value is the absent (undefined) node. -/
def Value.isAbsent : Value → Bool
  | .vundefined => true
  | _ => false

/-- BSON wire-type tag of a source value, as it appears in conversion error
messages (bson-parser.spec.ts: OBJECT, INT, STRING, BOOLEAN, ARRAY). -/
def bsonTypeName : Value → String
  | .vundefined => "UNDEFINED"
  | .vnull => "NULL"
  | .vbool _ => "BOOLEAN"
  | .vnum _ => "INT"
  | .vstr _ => "STRING"
  | .vdate _ => "DATE"
  | .varr _ => "ARRAY"
  | .vobj _ => "OBJECT"

mutual
/-- Modelled from the spec: type descriptors for the BSON-conversion path
(spec section 3), restricted to the kinds the claims exercise. -/
inductive Ty where
  | tstring
  | tnumber
  | tboolean
  | tdate
  | tarray (elem : Ty)
  | ttuple (elems : TList)
  | tunion (members : UList)
  | tobject (props : PList)
/-- Ordered tuple elements; each carries its variadic marker
(spec section 3, TupleType; at most one element is variadic). -/
inductive TList where
  | nil
  | cons (variadic : Bool) (t : Ty) (rest : TList)
/-- Ordered union members (spec section 3, UnionType; order is significant
for tie-breaking). -/
inductive UList where
  | nil
  | cons (t : Ty) (rest : UList)
/-- Ordered object properties with their optional markers
(spec section 3, ObjectType). -/
inductive PList where
  | nil
  | cons (name : String) (optional : Bool) (t : Ty) (rest : PList)
end

mutual
/-- Rendering of a descriptor for diagnostics, matching the messages asserted
in bson-parser.spec.ts (for example (string | boolean)[] and
[...number[], string]). -/
def render : Ty → String
  | .tstring => "string"
  | .tnumber => "number"
  | .tboolean => "boolean"
  | .tdate => "Date"
  | .tarray e =>
    match e with
    | .tunion ms => "(" ++ render (.tunion ms) ++ ")[]"
    | e => render e ++ "[]"
  | .ttuple es => "[" ++ renderT es ++ "]"
  | .tunion ms => renderU ms
  | .tobject ps => "\x7b" ++ renderP ps ++ "\x7d"
def renderT : TList → String
  | .nil => ""
  | .cons variadic t .nil => (if variadic then "..." ++ render t ++ "[]" else render t)
  | .cons variadic t (.cons v2 t2 rest) =>
    (if variadic then "..." ++ render t ++ "[]" else render t) ++ ", " ++
      renderT (.cons v2 t2 rest)
def renderU : UList → String
  | .nil => ""
  | .cons t .nil => render t
  | .cons t (.cons u rest) => render t ++ " | " ++ renderU (.cons u rest)
def renderP : PList → String
  | .nil => ""
  | .cons name optional t rest =>
    " " ++ name ++ (if optional then "?" else "") ++ ": " ++ render t ++ ";" ++ renderP rest
end

/-- The conversion-time type error: a present value names its BSON wire type,
an absent value uses the undefined-value form (spec section 4.2 and
bson-parser.spec.ts). -/
def mkTypeError (v : Value) (t : Ty) : String :=
  match v with
  | .vundefined => "Cannot convert undefined value to " ++ render t
  | v => "Cannot convert bson type " ++ bsonTypeName v ++ " to " ++ render t

/-- Number of non-variadic tuple elements: the minimum input length the tuple
requires (spec section 4.1). -/
def fixedCount : TList → Nat
  | .nil => 0
  | .cons true _ rest => fixedCount rest
  | .cons false _ rest => fixedCount rest + 1

mutual
/-- Modelled from the spec: the strict (coercion-free) type guard used for
union resolution; primitive kinds and literals must match exactly
(spec sections 4.1 and 4.2). -/
def strictGuard : Ty → Value → Bool
  | .tstring, .vstr _ => true
  | .tstring, _ => false
  | .tnumber, .vnum _ => true
  | .tnumber, _ => false
  | .tboolean, .vbool _ => true
  | .tboolean, _ => false
  | .tdate, .vdate _ => true
  | .tdate, _ => false
  | .tarray e, .varr l => l.all (fun x => strictGuard e x)
  | .tarray _, _ => false
  | .ttuple es, .varr l => strictTupleG es l
  | .ttuple _, _ => false
  | .tunion ms, v => strictAnyU ms v
  | .tobject ps, .vobj entries => strictPropsG ps entries
  | .tobject _, _ => false
/-- Strict tuple guard: fixed elements align to the front and back, the
variadic element absorbs the middle; a missing fixed element fails, extra
elements beyond a fixed-only tuple are tolerated. -/
def strictTupleG : TList → List Value → Bool
  | .nil, _ => true
  | .cons true t rest, l =>
    let midLen := l.length - fixedCount rest
    (l.take midLen).all (fun x => strictGuard t x) && strictTupleG rest (l.drop midLen)
  | .cons false _ _, [] => false
  | .cons false t rest, x :: xs => strictGuard t x && strictTupleG rest xs
/-- A union conforms when at least one member conforms (spec section 4.1). -/
def strictAnyU : UList → Value → Bool
  | .nil, _ => false
  | .cons t rest, v => strictGuard t v || strictAnyU rest v
/-- Strict object guard: every non-optional property is present and passes
its sub-guard (spec section 4.1). -/
def strictPropsG : PList → List (String × Value) → Bool
  | .nil, _ => true
  | .cons name optional t rest, entries =>
    (match entries.find? (fun e => e.1 == name) with
      | some e => strictGuard t e.2
      | none => optional) && strictPropsG rest entries
end

/-- A member type is simple when it is not array-shaped or object-shaped;
only unions made of simple members may fall back to loose coercion
(spec section 4.2, union resolution). -/
def isSimpleTy : Ty → Bool
  | .tarray _ => false
  | .ttuple _ => false
  | .tobject _ => false
  | _ => true

/-- A union is simple when every member is simple. -/
def isSimpleU : UList → Bool
  | .nil => true
  | .cons t rest => isSimpleTy t && isSimpleU rest

/-- Number of array-shaped or object-shaped members of a union. -/
def compositeCount : UList → Nat
  | .nil => 0
  | .cons t rest => (if isSimpleTy t then 0 else 1) + compositeCount rest

/-- Modelled from the spec: the loose (coercion-aware) guard consulted only
for simple unions: a string member accepts numbers and booleans, a number
member accepts numeric strings and booleans, a boolean member accepts
numbers but never strings, a Date member accepts numbers
(spec section 4.2). -/
def looseGuard : Ty → Value → Bool
  | .tstring, .vstr _ => true
  | .tstring, .vnum _ => true
  | .tstring, .vbool _ => true
  | .tstring, _ => false
  | .tnumber, .vnum _ => true
  | .tnumber, .vstr s => (parseIntString s).isSome
  | .tnumber, .vbool _ => true
  | .tnumber, _ => false
  | .tboolean, .vbool _ => true
  | .tboolean, .vnum _ => true
  | .tboolean, _ => false
  | .tdate, .vdate _ => true
  | .tdate, .vnum _ => true
  | .tdate, _ => false
  | _, _ => false

/-- Whether some union member passes the loose guard. -/
def looseAnyU : UList → Value → Bool
  | .nil, _ => false
  | .cons t rest, v => looseGuard t v || looseAnyU rest v

/-- Error-propagating map over the elements of an input sequence. -/
def mapExcept (f : Value → Except String Value) : List Value → Except String (List Value)
  | [] => .ok []
  | x :: xs => do
    let y ← f x
    let ys ← mapExcept f xs
    .ok (y :: ys)

mutual
/-- Modelled from the spec (section 4.2): kind-specific conversion of the
BSON path.  String coerces numbers and booleans; number coerces numeric
strings and booleans; boolean coerces numbers but rejects strings strictly;
arrays convert element-wise; tuples align fixed elements to front and back
with the variadic element absorbing the middle; unions resolve guard-first
(strict members in declaration order, loose fallback only for simple unions,
otherwise an immediate type error naming the full union). -/
def convTy : Ty → Value → Except String Value
  | .tstring, .vstr s => .ok (.vstr s)
  | .tstring, .vnum n => .ok (.vstr (toString n))
  | .tstring, .vbool b => .ok (.vstr (if b then "true" else "false"))
  | .tstring, v => .error (mkTypeError v .tstring)
  | .tnumber, .vnum n => .ok (.vnum n)
  | .tnumber, .vbool b => .ok (.vnum (if b then 1 else 0))
  | .tnumber, .vstr s =>
    (match parseIntString s with
      | some n => .ok (.vnum n)
      | none => .error (mkTypeError (.vstr s) .tnumber))
  | .tnumber, v => .error (mkTypeError v .tnumber)
  | .tboolean, .vbool b => .ok (.vbool b)
  | .tboolean, .vnum n => .ok (.vbool (n != 0))
  | .tboolean, v => .error (mkTypeError v .tboolean)
  | .tdate, .vdate d => .ok (.vdate d)
  | .tdate, .vnum n => .ok (.vdate n)
  | .tdate, v => .error (mkTypeError v .tdate)
  | .tarray e, .varr l => (mapExcept (fun x => convTy e x) l).map .varr
  | .tarray e, v => .error (mkTypeError v (.tarray e))
  | .ttuple es, .varr l =>
    if l.length < fixedCount es then .error (mkTypeError (.varr l) (.ttuple es))
    else (convTupleVals es l).map .varr
  | .ttuple es, v => .error (mkTypeError v (.ttuple es))
  | .tunion ms, .vundefined => .error ("Cannot convert undefined value to " ++ render (.tunion ms))
  | .tunion ms, v =>
    if strictAnyU ms v then convFirstStrictU ms v
    else if isSimpleU ms && looseAnyU ms v then convFirstLooseU ms v
    else .error (mkTypeError v (.tunion ms))
  | .tobject ps, .vobj entries => (convPropsObj ps entries).map .vobj
  | .tobject ps, v => .error (mkTypeError v (.tobject ps))
/-- Tuple conversion: fixed elements convert in place; at a variadic element
the middle of the input (input length minus the remaining fixed elements,
possibly zero items) converts against the variadic type and the remainder
aligns to the fixed back. -/
def convTupleVals : TList → List Value → Except String (List Value)
  | .nil, _ => .ok []
  | .cons true t rest, l =>
    let midLen := l.length - fixedCount rest
    do
      let mids ← mapExcept (fun x => convTy t x) (l.take midLen)
      let back ← convTupleVals rest (l.drop midLen)
      .ok (mids ++ back)
  | .cons false t _, [] =>
    .error ("Cannot convert undefined value to " ++ render t)
  | .cons false t rest, x :: xs => do
    let y ← convTy t x
    let ys ← convTupleVals rest xs
    .ok (y :: ys)
/-- Convert with the first union member whose strict guard passes
(declaration order, spec section 4.2). -/
def convFirstStrictU : UList → Value → Except String Value
  | .nil, v => .error ("Cannot convert bson type " ++ bsonTypeName v ++ " to union")
  | .cons t rest, v => if strictGuard t v then convTy t v else convFirstStrictU rest v
/-- Convert with the first union member whose loose guard passes (second
resolution pass of simple unions, spec section 4.2). -/
def convFirstLooseU : UList → Value → Except String Value
  | .nil, v => .error ("Cannot convert bson type " ++ bsonTypeName v ++ " to union")
  | .cons t rest, v => if looseGuard t v then convTy t v else convFirstLooseU rest v
/-- Object conversion: each declared property converts from the keyed input;
unknown extra keys are ignored; a missing non-optional property converts the
undefined value and so surfaces that kind's undefined-value error
(spec section 4.2). -/
def convPropsObj : PList → List (String × Value) → Except String (List (String × Value))
  | .nil, _ => .ok []
  | .cons name optional t rest, entries =>
    match entries.find? (fun e => e.1 == name) with
    | some e => do
      let v ← convTy t e.2
      let tail ← convPropsObj rest entries
      .ok ((name, v) :: tail)
    | none =>
      if optional then convPropsObj rest entries
      else do
        let v ← convTy t .vundefined
        let tail ← convPropsObj rest entries
        .ok ((name, v) :: tail)
end

/-- A top-level schema field of the BSON deserializer: a named property with
its descriptor, optional marker and declared default value. -/
structure SField where
  name : String
  ty : Ty
  optional : Bool
  defaultValue : Option Value

/-- Modelled from the spec and bson-parser.spec.ts (basic optional property
with initializer): conversion of one schema field.  A declared default is
applied when the input value is undefined or null; an optional field without
a default reads absent and null as undefined; otherwise the raw value goes
to the kind converter. -/
def deserializeField (f : SField) (v : Value) : Except String Value :=
  match v with
  | .vundefined =>
    match f.defaultValue with
    | some d => .ok d
    | none => if f.optional then .ok .vundefined else convTy f.ty .vundefined
  | .vnull =>
    match f.defaultValue with
    | some d => .ok d
    | none => if f.optional then .ok .vundefined else convTy f.ty .vnull
  | v => convTy f.ty v

/-- Keyed lookup in a BSON document; a missing key reads as undefined. -/
def lookupEntry (entries : List (String × Value)) (name : String) : Value :=
  match entries.find? (fun e => e.1 == name) with
  | some e => e.2
  | none => .vundefined

/-- Modelled from the spec: the BSON deserializer converts a keyed document
field by field against the schema, throwing on the first conversion error
(getBSONDeserializer in bson-parser.spec.ts). -/
def deserializeBSON (fields : List SField) (v : Value) : Except String Value :=
  match v with
  | .vobj entries =>
    (fields.mapM (fun f => (deserializeField f (lookupEntry entries f.name)).map
      (fun v' => (f.name, v')))).map .vobj
  | v => .error ("Cannot convert bson type " ++ bsonTypeName v ++ " to object")

end Bson

namespace TG

/-- Modelled from the spec: a resolvable type descriptor seen by the
typeguard module.  The Type Guard Compiler produces a conformance predicate
for guardable descriptors; for the others no guard function can be created
(src/packages/type/src/typeguard.ts line 24). -/
inductive TGTy where
  | guardable (conform : Nat → Bool)
  | unguardable

/-- A compiled guard function object stored in the JIT container: either the
output of the Type Guard Compiler, or the substituted fallback that returns
undefined for every input (typeguard.ts line 24). -/
inductive CompiledFn where
  | compiled (conform : Nat → Bool)
  | fallbackUndefined

/-- Modelled from the spec: createTypeGuardFunction (in serializer.ts, absent
from src/) returns the compiled guard of a guardable descriptor and nothing
otherwise. -/
def createTypeGuardFunction : TGTy → Option CompiledFn
  | .guardable c => some (.compiled c)
  | .unguardable => none

/-- ValidationErrorItem record pushed by a failing guard. -/
structure VErrItem where
  code : String
  message : String
  deriving DecidableEq, Repr

/-- Running a guard the way is() does, with a caller-supplied error list:
the returned value and the errors pushed.  A compiled guard returns its
boolean and records an error when the value does not conform; the fallback
returns undefined and records nothing. -/
def runGuard : CompiledFn → Nat → Option Bool × List VErrItem
  | .compiled c, v => if c v then (some true, []) else (some false, [⟨"type", "Invalid type"⟩])
  | .fallbackUndefined, _ => (none, [])

/-- Failures surfaced by the typeguard module: NoTypeReceived for an
unresolvable call, ValidationError for assert on a non-conforming value
(typeguard.ts lines 18 and 43). -/
inductive TGFailure where
  | noTypeReceived
  | validationFailed (errors : List VErrItem)
  deriving DecidableEq, Repr

/-- Embedding of getValidatorFunction (typeguard.ts lines 17 to 27): without
a received type it throws NoTypeReceived; with a populated JIT slot it
returns the stored function unchanged; otherwise it compiles (or substitutes
the fallback), stores the function in the JIT slot and returns it.  The
result carries the returned function, the updated JIT slot, and whether a
compilation happened on this call. -/
def getValidatorFunction (receiveType : Option TGTy) (jit : Option CompiledFn) :
    Except TGFailure (CompiledFn × Option CompiledFn × Bool) :=
  match receiveType with
  | none => .error .noTypeReceived
  | some t =>
    match jit with
    | some fn => .ok (fn, some fn, false)
    | none =>
      let fn := (createTypeGuardFunction t).getD .fallbackUndefined
      .ok (fn, some fn, true)

/-- Embedding of is (typeguard.ts lines 29 to 32): obtains the validator
function and applies it, returning the guard result (undefined reads as a
falsy conformance answer) together with the errors pushed and the updated
JIT slot. -/
def is (receiveType : Option TGTy) (jit : Option CompiledFn) (v : Nat) :
    Except TGFailure (Option Bool × List VErrItem × Option CompiledFn) :=
  match getValidatorFunction receiveType jit with
  | .error e => .error e
  | .ok (fn, jit', _) =>
    let r := runGuard fn v
    .ok (r.1, r.2, jit')

/-- Embedding of assert (typeguard.ts lines 39 to 45): runs is with a fresh
error list and throws a ValidationError exactly when that list is
non-empty. -/
def assert (receiveType : Option TGTy) (jit : Option CompiledFn) (v : Nat) :
    Except TGFailure (Option CompiledFn) :=
  match is receiveType jit v with
  | .error e => .error e
  | .ok (_, errs, jit') => if errs.isEmpty then .ok jit' else .error (.validationFailed errs)

end TG

/-- A union with at least two array-shaped or object-shaped members is not
simple, so it never reaches the loose resolution pass. -/
theorem isSimpleU_eq_false_of_two_composites :
    ∀ ms : Bson.UList, 2 ≤ Bson.compositeCount ms → Bson.isSimpleU ms = false
  | .nil, h => by simp [Bson.compositeCount] at h
  | .cons t rest, h => by
    by_cases ht : Bson.isSimpleTy t
    · have hc : Bson.compositeCount (.cons t rest) = Bson.compositeCount rest := by
        simp [Bson.compositeCount, ht]
      rw [hc] at h
      simp [Bson.isSimpleU, isSimpleU_eq_false_of_two_composites rest h]
    · simp [Bson.isSimpleU, ht]

/-- C1: for every descriptor and input value, validate returns an empty
error sequence exactly when the convert-and-validate entry point
(validatedPlainToClass) succeeds without raising, and when it fails it does
so with a single aggregate condition carrying the full ordered error
sequence that validate reports. -/
theorem claim_C1 (fields : List Marshal.MField) (input : List (String × Marshal.MValue)) :
    (Marshal.validate fields input = []
      ↔ ∃ o, Marshal.validatedPlainToClass fields input = .ok o) ∧
    ∀ es, Marshal.validatedPlainToClass fields input = .error es
      → es = Marshal.validate fields input := by
  constructor
  · constructor
    · intro h
      exact ⟨Marshal.plainToClass fields input, by simp [Marshal.validatedPlainToClass, h]⟩
    · rintro ⟨o, ho⟩
      cases hval : Marshal.validate fields input with
      | nil => rfl
      | cons a l => simp [Marshal.validatedPlainToClass, hval] at ho
  · intro es h
    cases hval : Marshal.validate fields input with
    | nil => simp [Marshal.validatedPlainToClass, hval] at h
    | cons a l =>
      simp [Marshal.validatedPlainToClass, hval] at h
      exact h.symm

/-- Witness for C1 at a concrete failing input: the aggregate failure of
validatedPlainToClass on a missing required field carries exactly the error
list validate reports. -/
theorem claim_C1_witness :
    [Marshal.mkErr "required" "Required value is undefined" "name"]
      = Marshal.validate [⟨"name", .pstring, false, false, none, []⟩] [] :=
  (claim_C1 [⟨"name", .pstring, false, false, none, []⟩] []).2
    [Marshal.mkErr "required" "Required value is undefined" "name"] rfl

/-- C2 (amended): in the validate path a declared default satisfies only an
undefined input, and a null input on a non-nullable, non-optional field
yields the required error Required value is null without applying the
default; the BSON conversion path, by contrast, applies the declared default
both when the input value is undefined and when it is null. -/
theorem claim_C2 (name : String) (k : Marshal.PKind) (d : Marshal.MValue)
    (ty : Bson.Ty) (dv : Bson.Value) :
    (Marshal.fieldErrors ⟨name, k, false, false, some d, []⟩ .undefinedv = []) ∧
    (Marshal.plainConvertField ⟨name, k, false, false, some d, []⟩ .undefinedv = d) ∧
    (Marshal.fieldErrors ⟨name, k, false, false, some d, []⟩ .nullv
      = [Marshal.mkErr "required" "Required value is null" name]) ∧
    (Bson.deserializeField ⟨name, ty, false, some dv⟩ .vundefined = .ok dv) ∧
    (Bson.deserializeField ⟨name, ty, false, some dv⟩ .vnull = .ok dv) :=
  ⟨rfl, rfl, rfl, rfl, rfl⟩

/-- Counterexample to C2 as stated: on the schema of the test basic optional
property with initializer (a Date field with a declared default), the BSON
conversion of a null input succeeds and applies the default instead of
emitting a required error. -/
theorem claim_C2_counterexample :
    Bson.deserializeBSON [⟨"v", .tdate, false, some (.vdate 0)⟩] (.vobj [("v", .vnull)])
        = .ok (.vobj [("v", .vdate 0)]) ∧
    Bson.deserializeBSON [⟨"v", .tdate, false, some (.vdate 0)⟩] (.vobj [("v", .vnull)])
        ≠ .error "Required value is null" := by
  constructor
  · rfl
  · intro h
    rw [show Bson.deserializeBSON [⟨"v", .tdate, false, some (.vdate 0)⟩]
        (.vobj [("v", .vnull)]) = .ok (.vobj [("v", .vdate 0)]) from rfl] at h
    exact Except.noConfusion h

/-- C3: required, optional and nullable are orthogonal in the validate path.
A non-optional, non-nullable field without a default yields exactly one
required error Required value is undefined on undefined and Required value
is null on null; an optional field yields no error on undefined; an optional
but non-nullable field on null yields the underlying kind's own type error
(for instance invalid_string, No String given), whose code is not required;
a field typed to accept null yields no error on null. -/
theorem claim_C3 (k : Marshal.PKind) (name : String) :
    (Marshal.fieldErrors ⟨name, k, false, false, none, []⟩ .undefinedv
      = [Marshal.mkErr "required" "Required value is undefined" name]) ∧
    (Marshal.fieldErrors ⟨name, k, false, false, none, []⟩ .nullv
      = [Marshal.mkErr "required" "Required value is null" name]) ∧
    (Marshal.fieldErrors ⟨name, k, true, false, none, []⟩ .undefinedv = []) ∧
    ((Marshal.fieldErrors ⟨name, k, true, false, none, []⟩ .nullv
      = [Marshal.mkErr (Marshal.kindErrCode k) (Marshal.kindErrMsg k) name]) ∧
      Marshal.kindErrCode k ≠ "required") ∧
    (Marshal.fieldErrors ⟨name, k, false, true, none, []⟩ .nullv = []) ∧
    (Marshal.fieldErrors ⟨name, k, true, true, none, []⟩ .nullv = []) := by
  cases k with
  | pstring => exact ⟨rfl, rfl, rfl, ⟨rfl, by decide⟩, rfl, rfl⟩
  | pnumber => exact ⟨rfl, rfl, rfl, ⟨rfl, by decide⟩, rfl, rfl⟩

/-- Witness for C3 at the string kind and the field name id, mirroring the
ModelOptional expectations of validation.spec.ts. -/
theorem claim_C3_witness :
    (Marshal.fieldErrors ⟨"id", .pstring, false, false, none, []⟩ .undefinedv
      = [Marshal.mkErr "required" "Required value is undefined" "id"]) ∧
    (Marshal.fieldErrors ⟨"id", .pstring, false, false, none, []⟩ .nullv
      = [Marshal.mkErr "required" "Required value is null" "id"]) ∧
    (Marshal.fieldErrors ⟨"id", .pstring, true, false, none, []⟩ .undefinedv = []) ∧
    ((Marshal.fieldErrors ⟨"id", .pstring, true, false, none, []⟩ .nullv
      = [Marshal.mkErr "invalid_string" "No String given" "id"]) ∧
      "invalid_string" ≠ "required") ∧
    (Marshal.fieldErrors ⟨"id", .pstring, false, true, none, []⟩ .nullv = []) ∧
    (Marshal.fieldErrors ⟨"id", .pstring, true, true, none, []⟩ .nullv = []) :=
  claim_C3 .pstring "id"

/-- C4: on the descriptor with a required string name and a required number
age, validating the input containing only name peter yields exactly one
error, the required error Required value is undefined at path age. -/
theorem claim_C4 :
    Marshal.validate
      [⟨"name", .pstring, false, false, none, []⟩, ⟨"age", .pnumber, false, false, none, []⟩]
      [("name", .str "peter")]
      = [Marshal.mkErr "required" "Required value is undefined" "age"] := rfl

/-- C5: a complicated union (one with two or more array-shaped or
object-shaped members) never loosely coerces a mismatched input: whenever no
member's strict guard passes on a present value, conversion fails
immediately with a type error naming the full union. -/
theorem claim_C5 (ms : Bson.UList) (v : Bson.Value)
    (hcomp : 2 ≤ Bson.compositeCount ms)
    (hstrict : Bson.strictAnyU ms v = false)
    (hdef : v.isAbsent = false) :
    Bson.convTy (.tunion ms) v
      = .error ("Cannot convert bson type " ++ Bson.bsonTypeName v
          ++ " to " ++ Bson.render (.tunion ms)) := by
  have hsimple := isSimpleU_eq_false_of_two_composites ms hcomp
  cases v with
  | vundefined => simp [Bson.Value.isAbsent] at hdef
  | vnull => simp [Bson.convTy, hstrict, hsimple, Bson.mkTypeError]
  | vbool b => simp [Bson.convTy, hstrict, hsimple, Bson.mkTypeError]
  | vnum n => simp [Bson.convTy, hstrict, hsimple, Bson.mkTypeError]
  | vstr s => simp [Bson.convTy, hstrict, hsimple, Bson.mkTypeError]
  | vdate d => simp [Bson.convTy, hstrict, hsimple, Bson.mkTypeError]
  | varr l => simp [Bson.convTy, hstrict, hsimple, Bson.mkTypeError]
  | vobj entries => simp [Bson.convTy, hstrict, hsimple, Bson.mkTypeError]

/-- Witness for C5 on the union of the two-array-union test, (string |
boolean)[] | number[], at the non-array input 123: the conversion fails with
the type error naming the full union. -/
theorem claim_C5_witness :
    Bson.convTy
      (.tunion (.cons (.tarray (.tunion (.cons .tstring (.cons .tboolean .nil))))
        (.cons (.tarray .tnumber) .nil)))
      (.vnum 123)
      = .error "Cannot convert bson type INT to (string | boolean)[] | number[]" :=
  claim_C5
    (.cons (.tarray (.tunion (.cons .tstring (.cons .tboolean .nil))))
      (.cons (.tarray .tnumber) .nil))
    (.vnum 123) (by decide) rfl rfl

/-- C6: tuple conversion aligns fixed elements to the front and back of the
input with the variadic element absorbing the middle, possibly zero items:
converting the single-element array 34 against a tuple of string followed by
variadic number yields the string 34, and converting it against a tuple of
variadic number followed by string also yields the string 34. -/
theorem claim_C6 :
    Bson.convTy (.ttuple (.cons false .tstring (.cons true .tnumber .nil)))
        (.varr [.vnum 34]) = .ok (.varr [.vstr "34"]) ∧
    Bson.convTy (.ttuple (.cons true .tnumber (.cons false .tstring .nil)))
        (.varr [.vnum 34]) = .ok (.varr [.vstr "34"]) :=
  ⟨rfl, rfl⟩

/-- C7: boolean coercion is asymmetric with string: a boolean input is
accepted as-is, the number zero coerces to false and every nonzero number to
true, and every string input is rejected with a type error. -/
theorem claim_C7 (b : Bool) (n : Int) (s : String) :
    Bson.convTy .tboolean (.vbool b) = .ok (.vbool b) ∧
    Bson.convTy .tboolean (.vnum 0) = .ok (.vbool false) ∧
    (n ≠ 0 → Bson.convTy .tboolean (.vnum n) = .ok (.vbool true)) ∧
    Bson.convTy .tboolean (.vstr s) = .error "Cannot convert bson type STRING to boolean" := by
  refine ⟨rfl, rfl, ?_, rfl⟩
  intro hn
  simp [Bson.convTy, bne, hn]

/-- Witness for C7 at the nonzero number 5 and the string 123, mirroring the
basic boolean test. -/
theorem claim_C7_witness :
    Bson.convTy .tboolean (.vnum 5) = .ok (.vbool true) ∧
    Bson.convTy .tboolean (.vstr "123")
      = .error "Cannot convert bson type STRING to boolean" :=
  ⟨(claim_C7 true 5 "123").2.2.1 (by decide), (claim_C7 true 5 "123").2.2.2⟩

/-- C8: an exception raised inside a custom validator is caught at the
boundary and normalized into a single error record whose code is the raised
condition's kind name (or the validator's declared code) and whose message
is the error message; validate returns this record in its error list instead
of propagating the raw exception. -/
theorem claim_C8 (name s kindName msg : String) (declared : Option String)
    (chk : Marshal.MValue → Marshal.VOutcome)
    (h : chk (.str s) = .raised kindName msg) :
    Marshal.validate [⟨name, .pstring, false, false, none, [⟨declared, chk⟩]⟩]
      [(name, .str s)]
      = [Marshal.mkErr (declared.getD kindName) msg name] := by
  simp [Marshal.validate, Marshal.lookupValue, Marshal.fieldErrors, Marshal.kindErrors,
    Marshal.kindCheck, Marshal.runValidators, h]

/-- Witness for C8 mirroring the inline validator throw test: the validator
raising MyError with message Too long on the over-long id 123456 produces
exactly the normalized record with code MyError. -/
theorem claim_C8_witness :
    Marshal.validate
      [⟨"id", .pstring, false, false, none,
        [⟨none, fun v => match v with
          | .str t => if 5 < t.length then .raised "MyError" "Too long" else .pass
          | _ => .pass⟩]⟩]
      [("id", .str "123456")]
      = [Marshal.mkErr "MyError" "Too long" "id"] :=
  claim_C8 "id" "123456" "MyError" "Too long" none _ rfl

/-- C9: compiled guard functions are memoized per descriptor identity: for a
resolvable descriptor, the first call to getValidatorFunction compiles a
function and stores it in the JIT container, and a second call with the same
descriptor returns the identical stored function object without
recompiling. -/
theorem claim_C9 (t : TG.TGTy) :
    ∃ fn, TG.getValidatorFunction (some t) none = .ok (fn, some fn, true) ∧
      TG.getValidatorFunction (some t) (some fn) = .ok (fn, some fn, false) :=
  ⟨(TG.createTypeGuardFunction t).getD .fallbackUndefined, rfl, rfl⟩

/-- C10: when no type-guard function can be created for a descriptor,
getValidatorFunction substitutes and caches the fallback guard returning
undefined for every input, so is reports every value as non-conforming
(a falsy, undefined result) without raising, and assert accepts every value
without raising because the fallback records no errors. -/
theorem claim_C10 (t : TG.TGTy) (v : Nat)
    (h : TG.createTypeGuardFunction t = none) :
    TG.getValidatorFunction (some t) none
        = .ok (.fallbackUndefined, some .fallbackUndefined, true) ∧
    TG.is (some t) none v = .ok (none, [], some .fallbackUndefined) ∧
    TG.assert (some t) none v = .ok (some .fallbackUndefined) := by
  cases t with
  | guardable c => simp [TG.createTypeGuardFunction] at h
  | unguardable => exact ⟨rfl, rfl, rfl⟩

/-- Witness for C10 at the unguardable descriptor and the input 0. -/
theorem claim_C10_witness :
    TG.getValidatorFunction (some .unguardable) none
        = .ok (.fallbackUndefined, some .fallbackUndefined, true) ∧
    TG.is (some .unguardable) none 0 = .ok (none, [], some .fallbackUndefined) ∧
    TG.assert (some .unguardable) none 0 = .ok (some .fallbackUndefined) :=
  claim_C10 .unguardable 0 rfl


